import Mathlib

/-!
Verification of `bot/utils/time.py`.

The module is embedded shallowly: each Python function becomes a Lean
definition over explicit data.  Python's `relativedelta` components are
modelled as a record of integers; `datetime.datetime` values as a record of
validated calendar fields plus an optional fixed UTC offset (seconds);
fallible parsing returns `Option`.
-/

namespace BotTime

/-- The six integer components of a `dateutil.relativedelta` that
`humanize_delta` inspects. -/
structure RelativeDelta where
  years : Int
  months : Int
  days : Int
  hours : Int
  minutes : Int
  seconds : Int
deriving Repr, DecidableEq

/-- `_stringify_time_unit(value, unit)` from `time.py`: `unit[:-1]` is the
unit name with its final character removed. -/
def stringify_time_unit (value : Int) (unit : String) : String :=
  if value = 1 then
    toString value ++ " " ++ unit.dropRight 1
  else if value = 0 then
    "less than a " ++ unit.dropRight 1
  else
    toString value ++ " " ++ unit

/-- The `units` tuple built at the top of `humanize_delta`, in source order
(years, months, days, hours, minutes, seconds). -/
def unitsList (delta : RelativeDelta) : List (String × Int) :=
  [("years", delta.years), ("months", delta.months), ("days", delta.days),
   ("hours", delta.hours), ("minutes", delta.minutes), ("seconds", delta.seconds)]

/-- The `for unit, value in units` loop of `humanize_delta`: append
`_stringify_time_unit(value, unit)` when `value` is truthy (non-zero) and
increment `unit_count`; after each iteration break when the unit equals
`precision` or `unit_count >= max_units`. -/
def emitLoop : List (String × Int) → String → Int → Nat → List String
  | [], _, _, _ => []
  | (unit, value) :: rest, precision, max_units, unit_count =>
      let strs : List String :=
        if value ≠ 0 then [stringify_time_unit value unit] else []
      let count : Nat := if value ≠ 0 then unit_count + 1 else unit_count
      if unit = precision ∨ (count : Int) ≥ max_units then strs
      else strs ++ emitLoop rest precision max_units count

/-- The `if len(time_strings) > 1` block: replace the last two entries by a
single entry joined with " and ". -/
def mergeLastTwo (l : List String) : List String :=
  match l.reverse with
  | b :: a :: rest => ((a ++ " and " ++ b) :: rest).reverse
  | _ => l

/-- `humanize_delta(delta, precision, max_units)` from `time.py`. -/
def humanize_delta (delta : RelativeDelta) (precision : String) (max_units : Int) : String :=
  let time_strings := emitLoop (unitsList delta) precision max_units 0
  let time_strings := mergeLastTwo time_strings
  if time_strings = [] then stringify_time_unit 0 precision
  else String.intercalate ", " time_strings

/-- Specification-side description of the scanned units (refinement target
for C1): iterate the units in order, keep each scanned pair, and stop as
soon as the current unit equals `precision` or the number of non-zero units
seen so far reaches `max_units`. -/
def scanUnits : List (String × Int) → String → Int → Nat → List (String × Int)
  | [], _, _, _ => []
  | (unit, value) :: rest, precision, max_units, unit_count =>
      let count : Nat := if value ≠ 0 then unit_count + 1 else unit_count
      if unit = precision ∨ (count : Int) ≥ max_units then [(unit, value)]
      else (unit, value) :: scanUnits rest precision max_units count

/-- `wait_until(time)` from `time.py`, on a single sample of
`datetime.datetime.utcnow()`.  Naive datetimes have microsecond resolution,
so both instants are the integer microsecond offsets from a common epoch;
`delay.total_seconds()` is their difference in seconds (exact here, and the
float comparison with 1.0 agrees with the rational one on integer
microsecond differences).  The result is the duration handed to the single
`asyncio.sleep` call, or `none` when the function returns without sleeping. -/
def wait_until_sleep (now_us target_us : Int) : Option ℚ :=
  let delay_seconds : ℚ := ((target_us - now_us : Int) : ℚ) / 1000000
  if delay_seconds > 1 then some delay_seconds else none

/-! ### Datetimes

`datetime.datetime` values: validated calendar fields plus an optional fixed
UTC offset in seconds (`none` = naive, `some 0` = `timezone.utc` /
`tz.tzutc()`). -/

/-- A validated `datetime.datetime`. -/
structure Datetime where
  year : Nat
  month : Nat
  day : Nat
  hour : Nat
  minute : Nat
  second : Nat
  microsecond : Nat
  tz : Option Int
deriving Repr, DecidableEq

/-- `calendar.isleap` / `datetime`'s leap-year rule. -/
def isLeap (y : Nat) : Bool := y % 4 = 0 && (y % 100 ≠ 0 || y % 400 = 0)

/-- `calendar.isleap` on a Python int (Python `%` is non-negative here, as is
`Int.emod` for a positive modulus). -/
def isLeapInt (y : Int) : Bool := y % 4 = 0 && (y % 100 ≠ 0 || y % 400 = 0)

def daysInMonth (y m : Nat) : Nat :=
  if m = 2 then (if isLeap y then 29 else 28)
  else if m = 4 || m = 6 || m = 9 || m = 11 then 30
  else 31

/-- The `datetime.datetime` constructor: range-check every field (seconds
above 59 and day 0 or past the month length raise `ValueError`). -/
def mkDatetime (year month day hour minute second microsecond : Int)
    (tz : Option Int) : Option Datetime :=
  if 1 ≤ year ∧ year ≤ 9999 ∧ 1 ≤ month ∧ month ≤ 12
      ∧ 1 ≤ day ∧ day ≤ (daysInMonth year.toNat month.toNat : Int)
      ∧ 0 ≤ hour ∧ hour ≤ 23 ∧ 0 ≤ minute ∧ minute ≤ 59
      ∧ 0 ≤ second ∧ second ≤ 59 ∧ 0 ≤ microsecond ∧ microsecond ≤ 999999 then
    some ⟨year.toNat, month.toNat, day.toNat, hour.toNat, minute.toNat,
      second.toNat, microsecond.toNat, tz⟩
  else none

/-! ### `parse_rfc1123`

`datetime.datetime.strptime(time_str, "%a, %d %b %Y %H:%M:%S GMT")` followed
by `.replace(tzinfo=timezone.utc)`.  CPython's `_strptime` compiles the
format to a regex matched case-insensitively against the whole string, with
each run of whitespace in the format matching one or more whitespace
characters; the numeric directives accept un-padded one-digit values
(`%d` is `3[01]|[12]\d|0[1-9]|[1-9]`, `%H` is `2[0-3]|[0-1]\d|\d`, `%M` is
`[0-5]\d|\d`, `%S` is `6[0-1]|[0-5]\d|\d`, `%Y` is four digits).  The parser
below mirrors that regex, including its left-to-right alternative order with
backtracking (two-digit candidate first, one-digit fallback).  ASCII
whitespace stands in for the regex `\s` class. -/

def isPySpace (c : Char) : Bool :=
  c = ' ' || c = '\t' || c = '\n' || c = '\r' || c = '\x0b' || c = '\x0c'

def skipPySpace : List Char → List Char
  | c :: cs => if isPySpace c then skipPySpace cs else c :: cs
  | [] => []

/-- `\s+`: at least one whitespace character, consumed greedily. -/
def ws1 : List Char → Option (List Char)
  | c :: cs => if isPySpace c then some (skipPySpace cs) else none
  | [] => none

def digitVal (c : Char) : Nat := c.toNat - 48

/-- Case-insensitive literal match. -/
def matchCI : List Char → List Char → Option (List Char)
  | [], cs => some cs
  | l :: ls, c :: cs => if c.toLower = l.toLower then matchCI ls cs else none
  | _ :: _, [] => none

/-- Locale day-name abbreviations (C locale), 0-indexed. -/
def dayAbbrevs : List String := ["mon", "tue", "wed", "thu", "fri", "sat", "sun"]

/-- Locale month-name abbreviations (C locale), 0-indexed. -/
def monthAbbrevs : List String :=
  ["jan", "feb", "mar", "apr", "may", "jun",
   "jul", "aug", "sep", "oct", "nov", "dec"]

def matchOneOfFrom : List String → Nat → List Char → Option (Nat × List Char)
  | [], _, _ => none
  | a :: rest, i, cs =>
    match matchCI a.data cs with
    | some cs2 => some (i, cs2)
    | none => matchOneOfFrom rest (i + 1) cs

/-- A one-or-two digit numeric field: try the two-digit alternatives first
(continuing with `k`), and fall back to the one-digit alternative when that
whole branch fails — exactly the regex's alternative order with
backtracking. -/
def numField2or1 {α : Type} (ok2 : Nat → Bool) (ok1 : Nat → Bool)
    (cs : List Char) (k : Nat → List Char → Option α) : Option α :=
  let two : Option α :=
    match cs with
    | a :: b :: rest =>
        if a.isDigit && b.isDigit && ok2 (digitVal a * 10 + digitVal b) then
          k (digitVal a * 10 + digitVal b) rest
        else none
    | _ => none
  match two with
  | some r => some r
  | none =>
    match cs with
    | a :: rest => if a.isDigit && ok1 (digitVal a) then k (digitVal a) rest else none
    | _ => none

/-- `%Y`: exactly four digits. -/
def year4 {α : Type} (cs : List Char) (k : Nat → List Char → Option α) : Option α :=
  match cs with
  | a :: b :: c :: d :: rest =>
      if a.isDigit && b.isDigit && c.isDigit && d.isDigit then
        k (digitVal a * 1000 + digitVal b * 100 + digitVal c * 10 + digitVal d) rest
      else none
  | _ => none

/-- The full-match regex for `"%a, %d %b %Y %H:%M:%S GMT"`, yielding
(year, month, day, hour, minute, second). -/
def strptime_rfc1123_fields (cs : List Char) : Option (Nat × Nat × Nat × Nat × Nat × Nat) :=
  (matchOneOfFrom dayAbbrevs 0 cs).bind fun wd =>
  match wd.2 with
  | ',' :: cs =>
    (ws1 cs).bind fun cs =>
    numField2or1 (fun v => 1 ≤ v && v ≤ 31) (fun v => 1 ≤ v && v ≤ 9) cs fun day cs =>
    (ws1 cs).bind fun cs =>
    (matchOneOfFrom monthAbbrevs 0 cs).bind fun mo =>
    (ws1 mo.2).bind fun cs =>
    year4 cs fun year cs =>
    (ws1 cs).bind fun cs =>
    numField2or1 (fun v => v ≤ 23) (fun v => v ≤ 9) cs fun hour cs =>
    match cs with
    | ':' :: cs =>
      numField2or1 (fun v => v ≤ 59) (fun v => v ≤ 9) cs fun minute cs =>
      match cs with
      | ':' :: cs =>
        numField2or1 (fun v => v ≤ 61) (fun v => v ≤ 9) cs fun second cs =>
        (ws1 cs).bind fun cs =>
        (matchCI "gmt".data cs).bind fun cs =>
        if cs = [] then some (year, mo.1 + 1, day, hour, minute, second) else none
      | _ => none
    | _ => none
  | _ => none

/-- `parse_rfc1123(time_str)` from `time.py`: `strptime` with the RFC-1123
format, then `.replace(tzinfo=timezone.utc)`. -/
def parse_rfc1123 (time_str : String) : Option Datetime :=
  (strptime_rfc1123_fields time_str.data).bind fun f =>
  match f with
  | (y, mo, d, h, mi, s) =>
    (mkDatetime y mo d h mi s 0 none).map fun dt => { dt with tz := some 0 }

/-! ### `format_infraction`

`dateutil.parser.isoparse(timestamp).strftime("%Y-%m-%d %H:%M")`, ported
from `dateutil/parser/isoparser.py` (default separator `sep=None`: any
single character may separate date and time).  Python's `int()` on a string
slice strips surrounding whitespace, takes an optional sign and decimal
digits with single underscores allowed between digits. -/

/-- `s[pos:pos+len]` (clamping, like a Python slice). -/
def slice (cs : List Char) (pos len : Nat) : List Char := (cs.drop pos).take len

def stripPyWs (cs : List Char) : List Char :=
  (skipPySpace (skipPySpace cs).reverse).reverse

def pyIntDigitsLoop : Nat → List Char → Option Nat
  | acc, [] => some acc
  | acc, c :: cs =>
      if c.isDigit then pyIntDigitsLoop (acc * 10 + digitVal c) cs
      else if c = '_' then
        match cs with
        | d :: cs2 =>
            if d.isDigit then pyIntDigitsLoop (acc * 10 + digitVal d) cs2 else none
        | [] => none
      else none

def pyIntNat : List Char → Option Nat
  | c :: cs => if c.isDigit then pyIntDigitsLoop (digitVal c) cs else none
  | [] => none

/-- Python `int(str)`. -/
def pyInt (cs : List Char) : Option Int :=
  match stripPyWs cs with
  | '+' :: rest => (pyIntNat rest).map fun n => (n : Int)
  | '-' :: rest => (pyIntNat rest).map fun n => -(n : Int)
  | rest => (pyIntNat rest).map fun n => (n : Int)

/-- Days before January 1 of year `y` in the proleptic Gregorian calendar
(`datetime`'s `_days_before_year`). -/
def daysBeforeYear (y : Nat) : Nat :=
  (y - 1) * 365 + (y - 1) / 4 - (y - 1) / 100 + (y - 1) / 400

/-- Days in year `y` before month `m`. -/
def daysBeforeMonth (y m : Nat) : Nat :=
  (List.range (m - 1)).foldl (fun acc i => acc + daysInMonth y (i + 1)) 0

/-- `date(y, m, d).toordinal()`: day 1 is 0001-01-01. -/
def toOrdinal (y m d : Nat) : Nat := daysBeforeYear y + daysBeforeMonth y m + d

/-- `date.max.toordinal()`, the ordinal of 9999-12-31. -/
def maxOrdinal : Nat := toOrdinal 9999 12 31

def findMonthAux (y : Nat) : Nat → Nat → Nat → Nat × Nat × Nat
  | 0, m, d => (y, m, d)
  | fuel + 1, m, d =>
      if d ≤ daysInMonth y m then (y, m, d)
      else findMonthAux y fuel (m + 1) (d - daysInMonth y m)

/-- `date.fromordinal`, by the 400/100/4/1-year cycle decomposition used in
CPython's `_ord2ymd`. -/
def fromOrdinal (n : Nat) : Nat × Nat × Nat :=
  let n0 := n - 1
  let n400 := n0 / 146097
  let r1 := n0 % 146097
  let n100 := r1 / 36524
  let r2 := r1 % 36524
  let n4 := r2 / 1461
  let r3 := r2 % 1461
  let n1 := r3 / 365
  let r4 := r3 % 365
  let year := n400 * 400 + n100 * 100 + n4 * 4 + n1 + 1
  if n1 = 4 ∨ n100 = 4 then (year - 1, 12, 31)
  else findMonthAux year 12 1 (r4 + 1)

/-- `isoparser._calculate_weekdate(year, week, day)`: week 1 holds January 4;
date arithmetic out of `date`'s range raises (modelled as `none`). -/
def calculateWeekdate (year weekno dayno : Int) : Option (Nat × Nat × Nat) :=
  if ¬(0 < weekno ∧ weekno < 54) then none
  else if ¬(0 < dayno ∧ dayno < 8) then none
  else if year < 1 ∨ year > 9999 then none
  else
    let jan4 : Int := (toOrdinal year.toNat 1 4 : Nat)
    let isoDay : Int := (jan4 - 1) % 7 + 1
    let week1 : Int := jan4 - (isoDay - 1)
    if week1 < 1 then none
    else
      let target : Int := week1 + (weekno - 1) * 7 + (dayno - 1)
      if target < 1 ∨ target > (maxOrdinal : Int) then none
      else some (fromOrdinal target.toNat)

/-- `isoparser._parse_isodate_common`: `YYYY`, `YYYY-MM`, `YYYY-MM-DD`,
`YYYYMMDD` (components defaulting to month 1, day 1), yielding the parsed
components and the position after the date part. -/
def parse_isodate_common (cs : List Char) : Option (Int × Int × Int × Nat) :=
  let len := cs.length
  if len < 4 then none
  else
    (pyInt (slice cs 0 4)).bind fun y =>
    if 4 ≥ len then some (y, 1, 1, 4)
    else
      let has_sep := cs.get? 4 == some '-'
      let pos := if has_sep then 5 else 4
      if len - pos < 2 then none
      else
        (pyInt (slice cs pos 2)).bind fun mo =>
        let pos := pos + 2
        if pos ≥ len then
          if has_sep then some (y, mo, 1, pos) else none
        else
          (if has_sep then
            (if cs.get? pos == some '-' then some (pos + 1) else none)
          else some pos).bind fun pos =>
          if len - pos < 2 then none
          else (pyInt (slice cs pos 2)).map fun d => (y, mo, d, pos + 2)

/-- `isoparser._parse_isodate_uncommon`: ISO week dates (`YYYY-Www-D`,
`YYYYWwwD`) and ordinal dates (`YYYY-DDD`, `YYYYDDD`). -/
def parse_isodate_uncommon (cs : List Char) : Option (Int × Int × Int × Nat) :=
  if cs.length < 4 then none
  else
    (pyInt (slice cs 0 4)).bind fun year =>
    let has_sep := cs.get? 4 == some '-'
    let pos := if has_sep then 5 else 4
    if cs.get? pos == some 'W' then
      (pyInt (slice cs (pos + 1) 2)).bind fun weekno =>
      let pos := pos + 3
      (if cs.length > pos then
        (if (cs.get? pos == some '-') != has_sep then none
         else
           let pos := if has_sep then pos + 1 else pos
           (pyInt (slice cs pos 1)).map fun dayno => (dayno, pos + 1))
       else some ((1 : Int), pos)).bind fun dp =>
      (calculateWeekdate year weekno dp.1).map fun ymd =>
      ((ymd.1 : Int), (ymd.2.1 : Int), (ymd.2.2 : Int), dp.2)
    else
      if cs.length - pos < 3 then none
      else
        (pyInt (slice cs pos 3)).bind fun od =>
        if od < 1 ∨ od > 365 + (if isLeapInt year then 1 else 0) then none
        else if year < 1 ∨ year > 9999 then none
        else
          let target : Int := (toOrdinal year.toNat 1 1 : Nat) + od - 1
          if target > (maxOrdinal : Int) then none
          else
            let ymd := fromOrdinal target.toNat
            some ((ymd.1 : Int), (ymd.2.1 : Int), (ymd.2.2 : Int), pos + 3)

/-- `isoparser._parse_isodate`: the common forms, falling back to the
uncommon forms when they fail. -/
def parse_isodate (cs : List Char) : Option (Int × Int × Int × Nat) :=
  match parse_isodate_common cs with
  | some r => some r
  | none => parse_isodate_uncommon cs

/-- `isoparser._parse_tzstr` (with `zero_as_utc`): `Z`/`z`, or a signed
offset of length 3, 5 or 6; a zero offset collapses to UTC before the range
checks. -/
def parse_tzstr (tzstr : List Char) : Option (Option Int) :=
  if tzstr = ['Z'] ∨ tzstr = ['z'] then some (some 0)
  else if tzstr.length ≠ 3 ∧ tzstr.length ≠ 5 ∧ tzstr.length ≠ 6 then none
  else
    (match tzstr with
     | '-' :: _ => some (-1 : Int)
     | '+' :: _ => some (1 : Int)
     | _ => none).bind fun mult =>
    (pyInt (slice tzstr 1 2)).bind fun hours =>
    (if tzstr.length = 3 then some (0 : Int)
     else pyInt (if tzstr.get? 3 == some ':' then tzstr.drop 4 else tzstr.drop 3)).bind
      fun minutes =>
    if hours = 0 ∧ minutes = 0 then some (some 0)
    else if minutes > 59 then none
    else if hours > 23 then none
    else some (some (mult * (hours * 60 + minutes) * 60))

/-- The fraction regex `[.,]([0-9]+)` matched at the start, giving the
microsecond value (first six digits, scaled) and the matched length. -/
def fracMatch (cs : List Char) : Option (Int × Nat) :=
  match cs with
  | c :: rest =>
      if c = '.' ∨ c = ',' then
        let digits := rest.takeWhile Char.isDigit
        if digits = [] then none
        else
          let us_str := digits.take 6
          let v := us_str.foldl (fun a d => a * 10 + digitVal d) 0
          some (((v * 10 ^ (6 - us_str.length) : Nat) : Int), 1 + digits.length)
      else none
  | [] => none

/-- The mutable state of `_parse_isotime`'s `while` loop. -/
structure IsoTimeState where
  pos : Nat
  comp : Int
  has_sep : Bool
  h : Int
  m : Int
  s : Int
  us : Int
  tz : Option Int
deriving Repr, DecidableEq

def setComp (st : IsoTimeState) (comp v : Int) : IsoTimeState :=
  if comp = 0 then { st with h := v }
  else if comp = 1 then { st with m := v }
  else { st with s := v }

/-- One-to-one port of `_parse_isotime`'s loop
(`while pos < len_str and comp < 5`); `comp` increments every iteration, so
six iterations of fuel always suffice. -/
def isotimeLoop (cs : List Char) : Nat → IsoTimeState → Option IsoTimeState
  | 0, st => some st
  | fuel + 1, st =>
    if st.pos < cs.length ∧ st.comp < 5 then
      let comp := st.comp + 1
      match cs.get? st.pos with
      | none => none
      | some c =>
        if c = '-' ∨ c = '+' ∨ c = 'Z' ∨ c = 'z' then
          (parse_tzstr (cs.drop st.pos)).bind fun tz =>
          isotimeLoop cs fuel { st with comp := comp, tz := tz, pos := cs.length }
        else
          (if comp = 1 ∧ c = ':' then some (st.pos + 1, true)
           else if comp = 2 ∧ st.has_sep then
             (if c = ':' then some (st.pos + 1, st.has_sep) else none)
           else some (st.pos, st.has_sep)).bind fun ps =>
          if comp < 3 then
            (pyInt (slice cs ps.1 2)).bind fun v =>
            isotimeLoop cs fuel
              { setComp st comp v with comp := comp, has_sep := ps.2, pos := ps.1 + 2 }
          else if comp = 3 then
            match fracMatch (cs.drop ps.1) with
            | some fr =>
                isotimeLoop cs fuel
                  { st with comp := comp, has_sep := ps.2, pos := ps.1 + fr.2, us := fr.1 }
            | none =>
                isotimeLoop cs fuel { st with comp := comp, has_sep := ps.2, pos := ps.1 }
          else
            isotimeLoop cs fuel { st with comp := comp, has_sep := ps.2, pos := ps.1 }
    else some st

/-- `isoparser._parse_isotime`: hour, minute, second, fraction and timezone;
hour 24 is only legal at 24:00:00.000000. -/
def parse_isotime (cs : List Char) : Option (Int × Int × Int × Int × Option Int) :=
  if cs.length < 2 then none
  else
    (isotimeLoop cs 6 ⟨0, -1, false, 0, 0, 0, 0, none⟩).bind fun st =>
    if st.pos < cs.length then none
    else if st.h = 24 ∧ ¬(st.m = 0 ∧ st.s = 0 ∧ st.us = 0) then none
    else some (st.h, st.m, st.s, st.us, st.tz)

/-- `datetime + timedelta(days=1)` on a valid datetime (overflow past
`date.max` raises, modelled as `none`). -/
def nextDay (dt : Datetime) : Option Datetime :=
  let target := toOrdinal dt.year dt.month dt.day + 1
  if target > maxOrdinal then none
  else
    let ymd := fromOrdinal target
    some { dt with year := ymd.1, month := ymd.2.1, day := ymd.2.2 }

/-- `dateutil.parser.isoparse(dt_str)`: parse the date part; any single
following character separates it from the time part (`sep=None`); hour 24
rolls over to midnight of the next day. -/
def isoparse (dt_str : String) : Option Datetime :=
  let cs := dt_str.data
  (parse_isodate cs).bind fun r =>
  match r with
  | (y, mo, d, pos) =>
    if pos < cs.length then
      (parse_isotime (cs.drop (pos + 1))).bind fun t =>
      match t with
      | (h, mi, sec, us, tz) =>
        if h = 24 then (mkDatetime y mo d 0 mi sec us tz).bind nextDay
        else mkDatetime y mo d h mi sec us tz
    else
      mkDatetime y mo d 0 0 0 0 none

def pad2 (n : Nat) : String := if n < 10 then "0" ++ toString n else toString n

def pad4 (n : Nat) : String :=
  if n < 10 then "000" ++ toString n
  else if n < 100 then "00" ++ toString n
  else if n < 1000 then "0" ++ toString n
  else toString n

/-- `dt.strftime("%Y-%m-%d %H:%M")` (the INFRACTION_FORMAT): renders the
datetime's own clock fields, ignoring its timezone. -/
def strftime_infraction (dt : Datetime) : String :=
  pad4 dt.year ++ "-" ++ pad2 dt.month ++ "-" ++ pad2 dt.day ++ " "
    ++ pad2 dt.hour ++ ":" ++ pad2 dt.minute

/-- `format_infraction(timestamp)` from `time.py`:
`dateutil.parser.isoparse(timestamp).strftime(INFRACTION_FORMAT)`. -/
def format_infraction (timestamp : String) : Option String :=
  (isoparse timestamp).map strftime_infraction

/-! ### Lemmas -/

lemma emitLoop_eq_scanUnits (l : List (String × Int)) (precision : String)
    (max_units : Int) : ∀ unit_count : Nat,
    emitLoop l precision max_units unit_count =
      ((scanUnits l precision max_units unit_count).filter (fun p => p.2 ≠ 0)).map
        (fun p => stringify_time_unit p.2 p.1) := by
  induction l with
  | nil => intro c; rfl
  | cons hd tl ih =>
      intro c
      obtain ⟨u, v⟩ := hd
      by_cases hv : v = 0
      · subst hv
        by_cases hc : u = precision ∨ ((c : Int) ≥ max_units)
        · simp [emitLoop, scanUnits, hc, List.filter]
        · simp [emitLoop, scanUnits, hc, List.filter, ih c]
      · by_cases hc : u = precision ∨ (max_units ≤ (c : Int) + 1)
        · simp [emitLoop, scanUnits, hv, hc, List.filter, ge_iff_le, Nat.cast_add,
            Nat.cast_one]
        · simp [emitLoop, scanUnits, hv, hc, List.filter, ih (c + 1), ge_iff_le,
            Nat.cast_add, Nat.cast_one]

lemma emitLoop_all_zero (l : List (String × Int)) (precision : String)
    (max_units : Int) : ∀ c : Nat, (∀ p ∈ l, p.2 = 0) →
    emitLoop l precision max_units c = [] := by
  induction l with
  | nil => intro c _; rfl
  | cons hd tl ih =>
      intro c hz
      obtain ⟨u, v⟩ := hd
      have hv : v = 0 := hz (u, v) (by simp)
      subst hv
      have htl : ∀ p ∈ tl, p.2 = 0 := fun p hp => hz p (by simp [hp])
      by_cases hc : u = precision ∨ (max_units ≤ (c : Int))
      · simp [emitLoop, hc]
      · simp [emitLoop, hc, ih c htl]

lemma emitLoop_no_precision (l : List (String × Int)) (precision : String)
    (max_units : Int) : ∀ c : Nat, (∀ p ∈ l, p.1 ≠ precision) →
    (c : Int) < max_units →
    emitLoop l precision max_units c =
      ((l.filter (fun p => p.2 ≠ 0)).map
        (fun p => stringify_time_unit p.2 p.1)).take (max_units - c).toNat := by
  induction l with
  | nil => intro c _ _; simp [emitLoop]
  | cons hd tl ih =>
      intro c hp hc
      obtain ⟨u, v⟩ := hd
      have hu : u ≠ precision := hp (u, v) (by simp)
      have htl : ∀ p ∈ tl, p.1 ≠ precision := fun p h => hp p (by simp [h])
      by_cases hv : v = 0
      · subst hv
        have hcond : ¬(u = precision ∨ max_units ≤ (c : Int)) := by
          push_neg; exact ⟨hu, by omega⟩
        simp [emitLoop, hcond, List.filter, ih c htl hc]
      · by_cases hstop : max_units ≤ (c : Int) + 1
        · have hmu : max_units = (c : Int) + 1 := by omega
          have hcond : u = precision ∨ max_units ≤ (c : Int) + 1 := Or.inr hstop
          have h1 : (max_units - c).toNat = 1 := by omega
          simp [emitLoop, hv, hcond, List.filter, h1, ge_iff_le, Nat.cast_add,
            Nat.cast_one]
        · have hcond : ¬(u = precision ∨ max_units ≤ (c : Int) + 1) := by
            push_neg; exact ⟨hu, by omega⟩
          have hrec := ih (c + 1) htl (by push_cast; omega)
          have htake : (max_units - c).toNat = (max_units - (c + 1)).toNat + 1 := by
            omega
          simp [emitLoop, hv, hcond, List.filter, hrec, ge_iff_le, Nat.cast_add,
            Nat.cast_one, htake]

lemma mergeLastTwo_append_two (l : List String) (a b : String) :
    mergeLastTwo (l ++ [a, b]) = l ++ [a ++ " and " ++ b] := by
  unfold mergeLastTwo
  rw [show l ++ [a, b] = (l ++ [a]) ++ [b] by simp]
  rw [List.reverse_append, List.reverse_append]
  simp

lemma intercalate_singleton (s : String) : String.intercalate ", " [s] = s := rfl

lemma mergeLastTwo_singleton (s : String) : mergeLastTwo [s] = [s] := rfl

/-! ### Claim theorems -/

/-- C1: `humanize_delta` scans the six units in descending order and stops as
soon as the current unit equals `precision` or the count of emitted units
reaches `max_units` (that is the `scanUnits` prefix); among the scanned units
it renders via `stringify_time_unit` exactly those with a non-zero value,
zero-valued units being skipped; and on
`{days: 1, hours: 2, minutes: 0, seconds: 5}` with precision "seconds" and
`max_units = 6` it returns "1 day, 2 hours and 5 seconds". -/
theorem humanize_delta_scans_and_skips_zero :
    (∀ (delta : RelativeDelta) (precision : String) (max_units : Int),
      emitLoop (unitsList delta) precision max_units 0 =
        ((scanUnits (unitsList delta) precision max_units 0).filter
          (fun p => p.2 ≠ 0)).map (fun p => stringify_time_unit p.2 p.1))
    ∧ humanize_delta ⟨0, 0, 1, 2, 0, 5⟩ "seconds" 6 = "1 day, 2 hours and 5 seconds" :=
  ⟨fun delta precision max_units =>
    emitLoop_eq_scanUnits (unitsList delta) precision max_units 0, rfl⟩

/-- C2: when the emit loop produced two or more strings, the last two are
merged with " and " (the list shrinks by one) and the result is joined with
", "; when it produced exactly one string, the output is that single string
with no " and " merge. -/
theorem humanize_delta_and_merge :
    (∀ (delta : RelativeDelta) (precision : String) (max_units : Int)
        (l : List String) (a b : String),
      emitLoop (unitsList delta) precision max_units 0 = l ++ [a, b] →
      humanize_delta delta precision max_units =
        String.intercalate ", " (l ++ [a ++ " and " ++ b]))
    ∧ (∀ (delta : RelativeDelta) (precision : String) (max_units : Int) (s : String),
      emitLoop (unitsList delta) precision max_units 0 = [s] →
      humanize_delta delta precision max_units = s) := by
  constructor
  · intro delta precision max_units l a b h
    simp only [humanize_delta]
    rw [h, mergeLastTwo_append_two]
    rw [if_neg (by simp)]
  · intro delta precision max_units s h
    simp only [humanize_delta]
    rw [h, mergeLastTwo_singleton]
    rw [if_neg (by simp), intercalate_singleton]

/-- Witness for C2: `{days: 1, hours: 2}` at `max_units = 6` emits two strings
and gets the " and " merge; `{days: 1, hours: 2, seconds: 5}` at
`max_units = 1` emits exactly one string and is returned unmerged. -/
theorem humanize_delta_and_merge_witness :
    (emitLoop (unitsList ⟨0, 0, 1, 2, 0, 0⟩) "seconds" 6 0 = [] ++ ["1 day", "2 hours"]
      ∧ humanize_delta ⟨0, 0, 1, 2, 0, 0⟩ "seconds" 6 =
          String.intercalate ", " ([] ++ ["1 day" ++ " and " ++ "2 hours"]))
    ∧ (emitLoop (unitsList ⟨0, 0, 1, 2, 0, 5⟩) "seconds" 1 0 = ["1 day"]
      ∧ humanize_delta ⟨0, 0, 1, 2, 0, 5⟩ "seconds" 1 = "1 day") :=
  ⟨⟨rfl, humanize_delta_and_merge.1 _ _ _ [] "1 day" "2 hours" rfl⟩,
   ⟨rfl, humanize_delta_and_merge.2 _ _ _ "1 day" rfl⟩⟩

/-- C4: whenever the emit loop produced no strings at all — in particular for
the all-zero delta with any precision and `max_units` — `humanize_delta`
falls back to `stringify_time_unit 0 precision`; the all-zero delta with
precision "minutes" gives "less than a minute". -/
theorem humanize_delta_zero_fallback :
    (∀ (delta : RelativeDelta) (precision : String) (max_units : Int),
      emitLoop (unitsList delta) precision max_units 0 = [] →
      humanize_delta delta precision max_units = stringify_time_unit 0 precision)
    ∧ (∀ (precision : String) (max_units : Int),
      humanize_delta ⟨0, 0, 0, 0, 0, 0⟩ precision max_units =
        stringify_time_unit 0 precision)
    ∧ humanize_delta ⟨0, 0, 0, 0, 0, 0⟩ "minutes" 6 = "less than a minute" := by
  refine ⟨?_, ?_, rfl⟩
  · intro delta precision max_units h
    simp only [humanize_delta]
    rw [h]
    rfl
  · intro precision max_units
    simp only [humanize_delta]
    rw [emitLoop_all_zero (unitsList ⟨0, 0, 0, 0, 0, 0⟩) precision max_units 0
      (by decide)]
    rfl

/-- Witness for C4: with precision "years" the loop breaks on the very first
unit before emitting anything, and the non-zero seconds component never
renders — the fallback string is produced. -/
theorem humanize_delta_zero_fallback_witness :
    emitLoop (unitsList ⟨0, 0, 0, 0, 0, 3⟩) "years" 6 0 = []
    ∧ humanize_delta ⟨0, 0, 0, 0, 0, 3⟩ "years" 6 = stringify_time_unit 0 "years" :=
  ⟨rfl, humanize_delta_zero_fallback.1 _ _ _ rfl⟩

/-- C5: `_stringify_time_unit` returns `"1 <unit minus final character>"` for
value 1, `"less than a <unit minus final character>"` for value 0, and
`"<value> <unit>"` otherwise; with the documented examples. -/
theorem stringify_time_unit_contract :
    (∀ u : String, stringify_time_unit 1 u = "1 " ++ u.dropRight 1)
    ∧ (∀ u : String, stringify_time_unit 0 u = "less than a " ++ u.dropRight 1)
    ∧ (∀ (value : Int) (u : String), value ≠ 1 → value ≠ 0 →
        stringify_time_unit value u = toString value ++ " " ++ u)
    ∧ stringify_time_unit 1 "seconds" = "1 second"
    ∧ stringify_time_unit 24 "hours" = "24 hours"
    ∧ stringify_time_unit 0 "minutes" = "less than a minute" :=
  ⟨fun _ => rfl, fun _ => rfl,
   fun value u h1 h0 => by simp [stringify_time_unit, h1, h0],
   rfl, rfl, rfl⟩

/-- Witness for C5: the plural branch at value 7. -/
theorem stringify_time_unit_contract_witness :
    (7 : Int) ≠ 1 ∧ (7 : Int) ≠ 0 ∧ stringify_time_unit 7 "days" = "7 days" :=
  ⟨by decide, by decide, by
    rw [stringify_time_unit_contract.2.2.1 7 "days" (by decide) (by decide)]
    rfl⟩

/-- C8: with a precision string that is none of the six unit names, the loop
runs through all six units without error, emitting every non-zero unit
subject only to the `max_units` counter: with `1 ≤ max_units` the emitted
strings are the first `max_units` non-zero units, and with `6 ≤ max_units`
every non-zero unit is emitted. -/
theorem humanize_delta_invalid_precision :
    ∀ (precision : String) (delta : RelativeDelta) (max_units : Int),
      precision ∉ (["years", "months", "days", "hours", "minutes", "seconds"] : List String) →
      1 ≤ max_units →
      (emitLoop (unitsList delta) precision max_units 0 =
        (((unitsList delta).filter (fun p => p.2 ≠ 0)).map
          (fun p => stringify_time_unit p.2 p.1)).take max_units.toNat)
      ∧ (6 ≤ max_units →
        emitLoop (unitsList delta) precision max_units 0 =
          ((unitsList delta).filter (fun p => p.2 ≠ 0)).map
            (fun p => stringify_time_unit p.2 p.1)) := by
  intro precision delta max_units hinv hmu
  have hnames : ∀ p ∈ unitsList delta, p.1 ≠ precision := by
    intro p hmem heq
    apply hinv
    rw [← heq]
    simp only [unitsList, List.mem_cons, List.mem_singleton,
      List.not_mem_nil, or_false] at hmem
    rcases hmem with h | h | h | h | h | h <;> simp [h]
  have hmain := emitLoop_no_precision (unitsList delta) precision max_units 0
    hnames (by omega)
  have htonat : ((max_units : Int) - ((0 : Nat) : Int)).toNat = max_units.toNat := by
    omega
  refine ⟨by rw [hmain]; rw [htonat], ?_⟩
  intro h6
  rw [hmain, htonat]
  apply List.take_of_length_le
  have hlen : ((unitsList delta).filter (fun p => p.2 ≠ 0)).length ≤ 6 := by
    have := List.length_filter_le (fun p => decide (p.2 ≠ 0)) (unitsList delta)
    simpa [unitsList] using this
  simp only [List.length_map]
  omega

/-- Witness for C8: precision "weeks" is invalid, and both non-zero units of
`{years: 1, days: 2}` are emitted. -/
theorem humanize_delta_invalid_precision_witness :
    "weeks" ∉ (["years", "months", "days", "hours", "minutes", "seconds"] : List String)
    ∧ (1 : Int) ≤ 6 ∧ (6 : Int) ≤ 6
    ∧ emitLoop (unitsList ⟨1, 0, 2, 0, 0, 0⟩) "weeks" 6 0 = ["1 year", "2 days"] :=
  ⟨by decide, by decide, by decide, by
    rw [(humanize_delta_invalid_precision "weeks" ⟨1, 0, 2, 0, 0, 0⟩ 6 (by decide)
      (by decide)).2 (by decide)]
    rfl⟩

/-- C10: with `max_units ≤ 0` the counter check only fires after the first
unit is processed, so a non-zero years component is still rendered (alone),
and only when years is zero does the fallback `stringify_time_unit 0
precision` appear. -/
theorem humanize_delta_max_units_nonpos :
    ∀ (delta : RelativeDelta) (precision : String) (max_units : Int),
      max_units ≤ 0 →
      (delta.years ≠ 0 →
        humanize_delta delta precision max_units =
          stringify_time_unit delta.years "years")
      ∧ (delta.years = 0 →
        humanize_delta delta precision max_units =
          stringify_time_unit 0 precision) := by
  intro delta precision max_units hmu
  constructor
  · intro hy
    have hemit : emitLoop (unitsList delta) precision max_units 0 =
        [stringify_time_unit delta.years "years"] := by
      simp [unitsList, emitLoop, hy]
      intro _ h
      exact absurd h (by omega)
    simp only [humanize_delta]
    rw [hemit, mergeLastTwo_singleton]
    rw [if_neg (by simp), intercalate_singleton]
  · intro hy
    have hemit : emitLoop (unitsList delta) precision max_units 0 = [] := by
      simp [unitsList, emitLoop, hy]
      intro _ h
      exact absurd h (by omega)
    simp only [humanize_delta]
    rw [hemit]
    rfl

/-- Witness for C10: `max_units = 0` still renders a non-zero years
component. -/
theorem humanize_delta_max_units_nonpos_witness :
    (0 : Int) ≤ 0 ∧ (5 : Int) ≠ 0
    ∧ humanize_delta ⟨5, 0, 0, 0, 0, 0⟩ "seconds" 0 = "5 years" :=
  ⟨by decide, by decide, by
    rw [(humanize_delta_max_units_nonpos ⟨5, 0, 0, 0, 0, 0⟩ "seconds" 0 (by decide)).1
      (by decide)]
    rfl⟩

/-- C6: `wait_until` computes the delay from a single sample of the clock; a
delay strictly greater than 1.0 seconds yields a single sleep of exactly that
duration, and any delay at most 1.0 seconds — in particular a target in the
past — yields no sleep at all. -/
theorem wait_until_single_sleep :
    ∀ now_us target_us : Int,
      (((target_us - now_us : Int) : ℚ) / 1000000 > 1 →
        wait_until_sleep now_us target_us =
          some (((target_us - now_us : Int) : ℚ) / 1000000))
      ∧ (((target_us - now_us : Int) : ℚ) / 1000000 ≤ 1 →
        wait_until_sleep now_us target_us = none)
      ∧ (target_us ≤ now_us → wait_until_sleep now_us target_us = none) := by
  intro now_us target_us
  have hpos : ∀ h : ((target_us - now_us : Int) : ℚ) / 1000000 > 1,
      wait_until_sleep now_us target_us =
        some (((target_us - now_us : Int) : ℚ) / 1000000) := by
    intro h
    simp only [wait_until_sleep]
    rw [if_pos h]
  have hneg : ∀ h : ((target_us - now_us : Int) : ℚ) / 1000000 ≤ 1,
      wait_until_sleep now_us target_us = none := by
    intro h
    simp only [wait_until_sleep]
    rw [if_neg (not_lt.mpr h)]
  refine ⟨hpos, hneg, ?_⟩
  intro hpast
  apply hneg
  have hsub : ((target_us - now_us : Int) : ℚ) ≤ 0 := by
    exact_mod_cast sub_nonpos.mpr hpast
  have : ((target_us - now_us : Int) : ℚ) / 1000000 ≤ 0 :=
    div_nonpos_iff.mpr (Or.inr ⟨hsub, by norm_num⟩)
  linarith

/-- Witness for C6: a 5-second delay sleeps for exactly 5 seconds; a
0.5-second delay and a past target do not sleep. -/
theorem wait_until_single_sleep_witness :
    (((5000000 - 0 : Int) : ℚ) / 1000000 > 1 ∧ wait_until_sleep 0 5000000 = some 5)
    ∧ (((500000 - 0 : Int) : ℚ) / 1000000 ≤ 1 ∧ wait_until_sleep 0 500000 = none)
    ∧ ((-3000000 : Int) ≤ 0 ∧ wait_until_sleep 0 (-3000000) = none) :=
  ⟨⟨by norm_num, by
      rw [(wait_until_single_sleep 0 5000000).1 (by norm_num)]; norm_num⟩,
   ⟨by norm_num, (wait_until_single_sleep 0 500000).2.1 (by norm_num)⟩,
   ⟨by norm_num, (wait_until_single_sleep 0 (-3000000)).2.2 (by norm_num)⟩⟩

/-- C3 counterexample: the claim says every string that does not match the
RFC-1123 pattern exactly — including a day without zero-padding — raises
ParseError, but `strptime`'s `%d` accepts a bare one-digit day, so
"Tue, 5 Nov 1994 08:12:31 GMT" parses successfully. -/
theorem parse_rfc1123_accepts_unpadded_day :
    parse_rfc1123 "Tue, 5 Nov 1994 08:12:31 GMT" =
      some ⟨1994, 11, 5, 8, 12, 31, 0, some 0⟩ := by decide

/-- C3 (amended): `parse_rfc1123` maps an RFC-1123 string to the
corresponding timestamp with the UTC timezone attached (the documented
example gives 1994-11-15T08:12:31Z), and fails on a wrong day-of-week name
or a missing trailing "GMT"; however the numeric fields follow `strptime`'s
lenient patterns, so a missing zero-padding (one-digit day) is accepted
rather than rejected. -/
theorem parse_rfc1123_contract :
    parse_rfc1123 "Tue, 15 Nov 1994 08:12:31 GMT" =
      some ⟨1994, 11, 15, 8, 12, 31, 0, some 0⟩
    ∧ parse_rfc1123 "Xyz, 15 Nov 1994 08:12:31 GMT" = none
    ∧ parse_rfc1123 "Tue, 15 Nov 1994 08:12:31" = none
    ∧ parse_rfc1123 "Tue, 5 Nov 1994 08:12:31 GMT" =
      some ⟨1994, 11, 5, 8, 12, 31, 0, some 0⟩ :=
  ⟨by decide, by decide, by decide, by decide⟩

/-- C7: `format_infraction` fails exactly when `isoparse` fails on its input
(ParseError on unparseable input), and renders every parsed timestamp with
the fixed "%Y-%m-%d %H:%M" pattern; the documented example holds. -/
theorem format_infraction_contract :
    (∀ s : String, format_infraction s = none ↔ isoparse s = none)
    ∧ (∀ (s : String) (dt : Datetime), isoparse s = some dt →
        format_infraction s = some (strftime_infraction dt))
    ∧ format_infraction "2021-03-05T14:30:00+00:00" = some "2021-03-05 14:30" := by
  refine ⟨?_, ?_, by decide⟩
  · intro s
    simp [format_infraction]
  · intro s dt h
    simp [format_infraction, h]

/-- Witness for C7: the documented example, parsed and rendered. -/
theorem format_infraction_contract_witness :
    isoparse "2021-03-05T14:30:00+00:00" = some ⟨2021, 3, 5, 14, 30, 0, 0, some 0⟩
    ∧ format_infraction "2021-03-05T14:30:00+00:00" =
        some (strftime_infraction ⟨2021, 3, 5, 14, 30, 0, 0, some 0⟩) :=
  ⟨by decide, format_infraction_contract.2.1 _ _ (by decide)⟩

/-- C9: `format_infraction` never converts to UTC: the rendered string is
built from the parsed datetime's own clock fields with the timezone ignored,
so an input with a +05:00 offset renders its local 14:30, not 09:30. -/
theorem format_infraction_renders_local_fields :
    (∀ (s : String) (dt : Datetime), isoparse s = some dt →
      format_infraction s =
        some (pad4 dt.year ++ "-" ++ pad2 dt.month ++ "-" ++ pad2 dt.day ++ " "
          ++ pad2 dt.hour ++ ":" ++ pad2 dt.minute))
    ∧ isoparse "2021-03-05T14:30:00+05:00" = some ⟨2021, 3, 5, 14, 30, 0, 0, some 18000⟩
    ∧ format_infraction "2021-03-05T14:30:00+05:00" = some "2021-03-05 14:30"
    ∧ format_infraction "2021-03-05T14:30:00+05:00" ≠ some "2021-03-05 09:30" := by
  refine ⟨?_, by decide, by decide, by decide⟩
  intro s dt h
  simp [format_infraction, strftime_infraction, h]

/-- Witness for C9: the +05:00 example keeps its own clock fields. -/
theorem format_infraction_renders_local_fields_witness :
    isoparse "2021-03-05T14:30:00+05:00" = some ⟨2021, 3, 5, 14, 30, 0, 0, some 18000⟩
    ∧ format_infraction "2021-03-05T14:30:00+05:00" =
        some (pad4 2021 ++ "-" ++ pad2 3 ++ "-" ++ pad2 5 ++ " "
          ++ pad2 14 ++ ":" ++ pad2 30) :=
  ⟨by decide, format_infraction_renders_local_fields.1 _
    ⟨2021, 3, 5, 14, 30, 0, 0, some 18000⟩ (by decide)⟩

end BotTime
